import Mathlib

/-!
# memory_tracer: the allocator hooks and the access recorder of `src/tracer.c`

A shallow embedding of `src/src/tracer.c` and the properties of its
specification.

* `void*` and `size_t` values are natural numbers; `size_t` arithmetic wraps
  modulo `2 ^ 64` (LP64), the null pointer is `0`.
* The static `FILE* log_file` is `Option String`: `none` is `NULL`, `some buf`
  an open stream whose not yet flushed bytes are `buf`.
* The bytes of `memory_access_log.csv` on disk are the field `disk`.
* What the platform answers during one call (does `fopen` succeed, what does
  `clock_gettime` return, which thread is calling) is an explicit `Env`.
* Every effect is appended to a ghost `trace`, so that ordering claims can be
  stated.
* The real allocator is any state-passing implementation over a state `σ`;
  `dlsym` is a table `Dl σ` of optional implementations.
* Calls run one after the other, in the order in which they take `log_mutex`;
  the stdio routines are atomic. The namespace `Reentrant` drops the last
  assumption: there the stdio routines may call the hooked operations, and the
  model follows whether the calling thread holds `log_mutex`.

The definitions come first, then the lemmas, then the claims `C1` to `C10`.
-/

namespace Tracer

/-! ## Values -/

/-- A `void*`: `0` is `NULL`. -/
abbrev Ptr := Nat

/-- A `size_t`. -/
abbrev Size := Nat

/-- One more than `SIZE_MAX`: `size_t` has 64 bits. -/
def SIZE_MOD : Nat := 2 ^ 64

/-- A call of one of the four hooked operations, with its arguments. -/
inductive Call where
  | malloc (size : Size)
  | free (ptr : Ptr)
  | calloc (nmemb size : Size)
  | realloc (ptr : Ptr) (size : Size)
deriving DecidableEq, Repr

/-- The effects a call can have, in the order they happen. -/
inductive Event where
  /-- The call `dlsym(RTLD_NEXT, name)` was made, and found something or not. -/
  | dlsym (name : String) (found : Bool)
  /-- The real implementation ran with the arguments of `c` and returned `ret`
  (`0` for `free`, which returns nothing). -/
  | real (c : Call) (ret : Ptr)
  /-- A call through a function pointer that is `NULL`. -/
  | callNull (name : String)
  /-- The function `log_memory_access(type, addr, size)` was entered. -/
  | enter (type : String) (addr : Ptr) (size : Size)
  | lock
  | unlock
  /-- The call `fopen("memory_access_log.csv", "w")` was made and succeeded or not. -/
  | fopen (ok : Bool)
  | fprintf (s : String)
  | fflush
  | fclose
deriving DecidableEq, Repr

/-- What the platform answers during one call. -/
structure Env where
  /-- Whether `fopen`, if it is attempted during this call, succeeds. -/
  fopen_ok : Bool
  /-- The field `ts.tv_sec` as filled in by `clock_gettime`. -/
  tv_sec : Int
  /-- The field `ts.tv_nsec` as filled in by `clock_gettime`. -/
  tv_nsec : Int
  /-- The value of `(unsigned long)pthread_self()`. -/
  tid : Nat
deriving DecidableEq, Repr

/-! ## printf conversions -/

/-- The conversions `%lu` and `%zu`: decimal digits. -/
def fmt_lu (n : Nat) : String := String.mk (Nat.toDigits 10 n)

/-- The conversion `%ld`: a minus sign for a negative value, then decimal digits. -/
def fmt_ld (i : Int) : String :=
  if i < 0 then "-" ++ fmt_lu i.natAbs else fmt_lu i.natAbs

/-- Left padding with `'0'` up to `width` characters. -/
def zeroPad (width : Nat) (digits : List Char) : List Char :=
  List.replicate (width - digits.length) '0' ++ digits

/-- The conversion `%09ld`: as `%ld`, zero-padded to a field of 9 characters (the sign counts
in the width and comes before the zeros). -/
def fmt_09ld (i : Int) : String :=
  if i < 0 then String.mk ('-' :: zeroPad 8 (Nat.toDigits 10 i.natAbs))
  else String.mk (zeroPad 9 (Nat.toDigits 10 i.natAbs))

/-- The conversion `%p` as glibc prints it: `(nil)` for the null pointer, otherwise `0x` and
the lower-case hexadecimal digits. -/
def fmt_p (p : Ptr) : String :=
  if p = 0 then "(nil)" else "0x" ++ String.mk (Nat.toDigits 16 p)

/-- The header written by `open_log`. -/
def HEADER : String := "timestamp,thread_id,access_type,address,size\n"

/-- The result of `"%ld.%09ld,%lu,%s,%p,%zu\n"` in `log_memory_access`. -/
def format_line (tv_sec tv_nsec : Int) (tid : Nat) (type : String) (addr : Ptr)
    (size : Size) : String :=
  fmt_ld tv_sec ++ "." ++ fmt_09ld tv_nsec ++ "," ++ fmt_lu tid ++ "," ++ type ++ ","
    ++ fmt_p addr ++ "," ++ fmt_lu size ++ "\n"

/-! ## The recorder: `log_file`, the file on disk, the trace -/

/-- The state that `open_log`, `tracer_finalize` and `log_memory_access` work on. -/
structure Recorder where
  /-- The static `log_file`: `none` is `NULL`, `some buf` an open stream with
  `buf` written but not yet flushed. -/
  log_file : Option String
  /-- The bytes of `memory_access_log.csv`. -/
  disk : String
  /-- The effects so far, oldest first. -/
  trace : List Event
deriving DecidableEq, Repr

/-- Append one event to the trace. -/
def emit (e : Event) (r : Recorder) : Recorder :=
  { r with trace := r.trace ++ [e] }

/-- The call `fopen("memory_access_log.csv", "w")`: on success the file is created or
truncated to length zero and the stream is open with an empty buffer; on
failure nothing changes and the result is `NULL`. -/
def fopen_w (ok : Bool) (r : Recorder) : Recorder :=
  if ok then emit (.fopen true) { r with log_file := some "", disk := "" }
  else emit (.fopen false) { r with log_file := none }

/-- The call `fprintf(log_file, ...)` with the formatted text `s`: the text goes to the
stream buffer. -/
def fprintf (s : String) (r : Recorder) : Recorder :=
  match r.log_file with
  | some buf => emit (.fprintf s) { r with log_file := some (buf ++ s) }
  | none => r

/-- The call `fflush(log_file)`: the buffered bytes are appended to the file. -/
def fflush (r : Recorder) : Recorder :=
  match r.log_file with
  | some buf => emit .fflush { r with log_file := some "", disk := r.disk ++ buf }
  | none => r

/-- The call `fclose(log_file)`: the buffered bytes are appended to the file and the
stream is gone; the variable `log_file` itself is not touched by `fclose`, the
caller resets it. -/
def fclose (r : Recorder) : Recorder :=
  match r.log_file with
  | some buf => emit .fclose { r with disk := r.disk ++ buf }
  | none => r

/-- The function `open_log` of `tracer.c`. -/
def open_log (env : Env) (r : Recorder) : Recorder :=
  if r.log_file.isNone then
    let r := fopen_w env.fopen_ok r
    if r.log_file.isSome then
      let r := fprintf HEADER r
      fflush r
    else r
  else r

/-- The function `tracer_init` of `tracer.c`. -/
def tracer_init (env : Env) (r : Recorder) : Recorder :=
  open_log env r

/-- The function `tracer_finalize` of `tracer.c`. -/
def tracer_finalize (r : Recorder) : Recorder :=
  if r.log_file.isSome then
    let r := fclose r
    { r with log_file := none }
  else r

/-- The function `log_memory_access` of `tracer.c`. The mutex is taken and released; in this
sequential view the calling thread does not hold it on entry. -/
def log_memory_access (env : Env) (type : String) (addr : Ptr) (size : Size)
    (r : Recorder) : Recorder :=
  let r := emit (.enter type addr size) r
  let r := emit .lock r
  let r := open_log env r
  let r :=
    if r.log_file.isSome then
      let r := fprintf (format_line env.tv_sec env.tv_nsec env.tid type addr size) r
      fflush r
    else r
  emit .unlock r

/-! ## The allocator hooks -/

/-- What `dlsym(RTLD_NEXT, name)` returns for each of the four names: the real
implementation, a state-passing function over the allocator state `σ`, or
nothing (`NULL`). -/
structure Dl (σ : Type) where
  malloc : Option (Size → σ → Ptr × σ)
  free : Option (Ptr → σ → σ)
  calloc : Option (Size → Size → σ → Ptr × σ)
  realloc : Option (Ptr → Size → σ → Ptr × σ)

/-- The process state: the recorder, the state of the real allocator and the
four function-local statics `real_malloc`, `real_free`, `real_calloc`,
`real_realloc` (`none` is `NULL`). -/
structure World (σ : Type) where
  log : Recorder
  heap : σ
  real_malloc : Option (Size → σ → Ptr × σ)
  real_free : Option (Ptr → σ → σ)
  real_calloc : Option (Size → Size → σ → Ptr × σ)
  real_realloc : Option (Ptr → Size → σ → Ptr × σ)

/-- How a call of a hook ends: it returns a value, or it calls through a null
function pointer, which is where this model stops following the process. -/
inductive Outcome (α σ : Type) where
  | returned (value : α) (w : World σ)
  | nullCall (w : World σ)

/-- The state in which the call ended. -/
def Outcome.world {α σ : Type} : Outcome α σ → World σ
  | .returned _ w => w
  | .nullCall w => w

/-- The value handed back to the caller, if the call returned. -/
def Outcome.value {α σ : Type} : Outcome α σ → Option α
  | .returned v _ => some v
  | .nullCall _ => none

/-- Append one event to the trace of the process. -/
def World.emit {σ : Type} (e : Event) (w : World σ) : World σ :=
  { w with log := Tracer.emit e w.log }

/-- The hook `malloc` of `tracer.c`. -/
def malloc {σ : Type} (dl : Dl σ) (env : Env) (size : Size) (w : World σ) : Outcome Ptr σ :=
  let w := if w.real_malloc.isNone then
      { w.emit (.dlsym "malloc" dl.malloc.isSome) with real_malloc := dl.malloc }
    else w
  match w.real_malloc with
  | none => .nullCall (w.emit (.callNull "malloc"))
  | some f =>
    let res := f size w.heap
    let ptr := res.1
    let w := { w with heap := res.2 }.emit (.real (.malloc size) ptr)
    let w := { w with log := log_memory_access env "malloc" ptr size w.log }
    .returned ptr w

/-- The hook `free` of `tracer.c`. -/
def free {σ : Type} (dl : Dl σ) (env : Env) (ptr : Ptr) (w : World σ) : Outcome Unit σ :=
  let w := if w.real_free.isNone then
      { w.emit (.dlsym "free" dl.free.isSome) with real_free := dl.free }
    else w
  let w := { w with log := log_memory_access env "free" ptr 0 w.log }
  match w.real_free with
  | none => .nullCall (w.emit (.callNull "free"))
  | some f =>
    let w := { w with heap := f ptr w.heap }.emit (.real (.free ptr) 0)
    .returned () w

/-- The hook `calloc` of `tracer.c`; the product `nmemb * size` is computed in
`size_t`. -/
def calloc {σ : Type} (dl : Dl σ) (env : Env) (nmemb size : Size) (w : World σ) :
    Outcome Ptr σ :=
  let w := if w.real_calloc.isNone then
      { w.emit (.dlsym "calloc" dl.calloc.isSome) with real_calloc := dl.calloc }
    else w
  match w.real_calloc with
  | none => .nullCall (w.emit (.callNull "calloc"))
  | some f =>
    let res := f nmemb size w.heap
    let ptr := res.1
    let w := { w with heap := res.2 }.emit (.real (.calloc nmemb size) ptr)
    let w := { w with log := log_memory_access env "calloc" ptr (nmemb * size % SIZE_MOD) w.log }
    .returned ptr w

/-- The hook `realloc` of `tracer.c`. -/
def realloc {σ : Type} (dl : Dl σ) (env : Env) (ptr : Ptr) (size : Size) (w : World σ) :
    Outcome Ptr σ :=
  let w := if w.real_realloc.isNone then
      { w.emit (.dlsym "realloc" dl.realloc.isSome) with real_realloc := dl.realloc }
    else w
  match w.real_realloc with
  | none => .nullCall (w.emit (.callNull "realloc"))
  | some f =>
    let res := f ptr size w.heap
    let new_ptr := res.1
    let w := { w with heap := res.2 }.emit (.real (.realloc ptr size) new_ptr)
    let w := { w with log := log_memory_access env "realloc" new_ptr size w.log }
    .returned new_ptr w

/-! ## Real allocators and sequences of calls -/

/-- A real allocator: four total state-passing functions over its state `σ`.
`free` returns nothing; a failing allocation returns `0`. -/
structure RealAlloc (σ : Type) where
  malloc : Size → σ → Ptr × σ
  free : Ptr → σ → σ
  calloc : Size → Size → σ → Ptr × σ
  realloc : Ptr → Size → σ → Ptr × σ

/-- The symbol table in which every one of the four names resolves to the
implementation of `real`. -/
def Dl.ofReal {σ : Type} (real : RealAlloc σ) : Dl σ :=
  { malloc := some real.malloc, free := some real.free,
    calloc := some real.calloc, realloc := some real.realloc }

/-- Each of the four statics is still `NULL` or already holds the
implementation of `real` (what an earlier `dlsym` returned). -/
def World.Uses {σ : Type} (w : World σ) (real : RealAlloc σ) : Prop :=
  (w.real_malloc = none ∨ w.real_malloc = some real.malloc) ∧
  (w.real_free = none ∨ w.real_free = some real.free) ∧
  (w.real_calloc = none ∨ w.real_calloc = some real.calloc) ∧
  (w.real_realloc = none ∨ w.real_realloc = some real.realloc)

/-- The process before anything ran: no stream, the four statics `NULL`. -/
def World.start {σ : Type} (heap : σ) (disk : String) : World σ :=
  { log := { log_file := none, disk := disk, trace := [] }, heap := heap,
    real_malloc := none, real_free := none, real_calloc := none, real_realloc := none }

/-- One call into `tracer.c` from the program. -/
inductive Op where
  /-- A call `tracer_init()`. -/
  | init (env : Env)
  /-- A call `tracer_finalize()`. -/
  | finalize
  /-- A call of a hooked operation. -/
  | hooked (env : Env) (c : Call)
  /-- A direct call of `log_memory_access(type, addr, size)`. -/
  | log (env : Env) (type : String) (addr : Ptr) (size : Size)
deriving DecidableEq, Repr

/-- Forget the returned value. -/
def Outcome.void {α σ : Type} : Outcome α σ → Outcome Unit σ
  | .returned _ w => .returned () w
  | .nullCall w => .nullCall w

/-- A call of a hooked operation, dispatched to its hook. The value is the
pointer the hook returns; `free` returns nothing, which is shown as `0`. -/
def hooked {σ : Type} (dl : Dl σ) (env : Env) (c : Call) (w : World σ) : Outcome Ptr σ :=
  match c with
  | .malloc size => malloc dl env size w
  | .free ptr =>
    match free dl env ptr w with
    | .returned _ w1 => .returned 0 w1
    | .nullCall w1 => .nullCall w1
  | .calloc nmemb size => calloc dl env nmemb size w
  | .realloc ptr size => realloc dl env ptr size w

/-- Run one call. -/
def step {σ : Type} (dl : Dl σ) (op : Op) (w : World σ) : Outcome Unit σ :=
  match op with
  | .init env => .returned () { w with log := tracer_init env w.log }
  | .finalize => .returned () { w with log := tracer_finalize w.log }
  | .hooked env c => (hooked dl env c w).void
  | .log env type addr size =>
    .returned () { w with log := log_memory_access env type addr size w.log }

/-- Run a sequence of calls, one after the other; the process goes no further
than a call through a null pointer. -/
def run {σ : Type} (dl : Dl σ) : List Op → World σ → Outcome Unit σ
  | [], w => .returned () w
  | op :: ops, w =>
    match step dl op w with
    | .returned _ w1 => run dl ops w1
    | .nullCall w1 => .nullCall w1

/-- The calls of the real implementations among some events, with what they
returned. -/
def realCalls : List Event → List (Call × Ptr)
  | [] => []
  | .real c ret :: es => (c, ret) :: realCalls es
  | _ :: es => realCalls es

/-- The events that one call of `log_memory_access` adds to the trace, given
whether the stream was open on entry. -/
def logEvents (env : Env) (type : String) (addr : Ptr) (size : Size) (wasOpen : Bool) :
    List Event :=
  [.enter type addr size, .lock]
    ++ (if wasOpen then [] else
          if env.fopen_ok then [.fopen true, .fprintf HEADER, .fflush] else [.fopen false])
    ++ (if wasOpen || env.fopen_ok then
          [.fprintf (format_line env.tv_sec env.tv_nsec env.tid type addr size), .fflush]
        else [])
    ++ [.unlock]

/-- The calls of `log_memory_access` among some events, with their arguments:
the records handed to the recorder. -/
def entered : List Event → List (String × Ptr × Size)
  | [] => []
  | .enter type addr size :: es => (type, addr, size) :: entered es
  | _ :: es => entered es

/-- Follow `fopen` and `fclose` through some events, starting with the stream
open or not: `none` when an `fopen` happens while the stream is open or an
`fclose` while it is not, otherwise whether the stream is open at the end. -/
def handleAfter : Bool → List Event → Option Bool
  | b, [] => some b
  | b, .fopen ok :: es => if b then none else handleAfter ok es
  | b, .fclose :: es => if b then handleAfter false es else none
  | b, _ :: es => handleAfter b es

/-- Whether the call can open the log file: the stream is not open and the
`fopen` of the call, if the call reaches it, succeeds. -/
def opens (op : Op) (r : Recorder) : Bool :=
  r.log_file.isNone &&
    match op with
    | .init env => env.fopen_ok
    | .finalize => false
    | .hooked env _ => env.fopen_ok
    | .log env _ _ _ => env.fopen_ok

/-- The name of the operation of a call, as passed to `dlsym`. -/
def Call.name : Call → String
  | .malloc _ => "malloc"
  | .free _ => "free"
  | .calloc _ _ => "calloc"
  | .realloc _ _ => "realloc"

/-- Whether the static that belongs to the operation of `c` holds an
implementation. -/
def World.bound {σ : Type} (w : World σ) : Call → Bool
  | .malloc _ => w.real_malloc.isSome
  | .free _ => w.real_free.isSome
  | .calloc _ _ => w.real_calloc.isSome
  | .realloc _ _ => w.real_realloc.isSome

/-- Whether `dlsym` finds an implementation of the operation of `c`. -/
def Dl.finds {σ : Type} (dl : Dl σ) : Call → Bool
  | .malloc _ => dl.malloc.isSome
  | .free _ => dl.free.isSome
  | .calloc _ _ => dl.calloc.isSome
  | .realloc _ _ => dl.realloc.isSome

/-! ## What the log should hold: records -/

/-- A log record: when and by which thread, the kind, the address, the size. -/
structure Rec where
  env : Env
  kind : String
  addr : Ptr
  size : Size
deriving DecidableEq, Repr

/-- What the real allocator does for a call: the pointer it returns (`0` for
`free`) and its next state. -/
def RealAlloc.apply {σ : Type} (real : RealAlloc σ) (c : Call) (heap : σ) : Ptr × σ :=
  match c with
  | .malloc size => real.malloc size heap
  | .free ptr => (0, real.free ptr heap)
  | .calloc nmemb size => real.calloc nmemb size heap
  | .realloc ptr size => real.realloc ptr size heap

/-- The record that describes a call whose real implementation returned `ret`:
the kind, the address (the result, for `free` the argument) and the size (for
`free` zero, for `calloc` the product as `size_t` computes it). -/
def Call.record (env : Env) (c : Call) (ret : Ptr) : Rec :=
  match c with
  | .malloc size => { env := env, kind := "malloc", addr := ret, size := size }
  | .free ptr => { env := env, kind := "free", addr := ptr, size := 0 }
  | .calloc nmemb size =>
    { env := env, kind := "calloc", addr := ret, size := nmemb * size % SIZE_MOD }
  | .realloc _ size => { env := env, kind := "realloc", addr := ret, size := size }

/-- A bump allocator: its state is the next free address. An allocation of
`size` bytes returns that address and moves it on by `size`; `calloc` fails
with `0` when `nmemb * size` does not fit `size_t`; `free` does nothing;
`realloc` allocates afresh. -/
def bumpAlloc : RealAlloc Nat :=
  { malloc := fun size next => (next, next + size)
    free := fun _ next => next
    calloc := fun nmemb size next =>
      if nmemb * size < SIZE_MOD then (next, next + nmemb * size) else (0, next)
    realloc := fun _ size next => (next, next + size) }

/-- A symbol table in which none of the four names is found. -/
def Dl.nothing (σ : Type) : Dl σ :=
  { malloc := none, free := none, calloc := none, realloc := none }

/-- An environment for examples: `fopen` answers `ok`, the clock shows
`sec.000000005`, the thread is 140. -/
def envAt (ok : Bool) (sec : Int) : Env :=
  { fopen_ok := ok, tv_sec := sec, tv_nsec := 5, tid := 140 }

/-- The process before anything ran, with the bump allocator starting at
address 4096 and no log file content. -/
def bumpStart : World Nat := World.start 4096 ""

/-- An eager start, one allocation, and the shutdown. -/
def initMallocFinalize : List Op :=
  [.init (envAt true 1), .hooked (envAt true 2) (.malloc 16), .finalize]

/-- The process with the bump allocator after `tracer_init` opened the log. -/
def openedWorld : World Nat :=
  (run (Dl.ofReal bumpAlloc) [.init (envAt true 1)] bumpStart).world

namespace Reentrant

/-- The hooked operations that each stdio routine calls internally, every time
it runs, before it takes effect. -/
structure Stdio where
  fopen : List Call
  fprintf : List Call
  fflush : List Call
  fclose : List Call
deriving DecidableEq, Repr

/-- Stdio routines that call no hooked operation. -/
def Stdio.quiet : Stdio := { fopen := [], fprintf := [], fflush := [], fclose := [] }

/-- The process as one thread sees it: the world, and whether this thread
holds `log_mutex`. -/
structure State (σ : Type) where
  world : World σ
  log_mutex : Bool

/-- How a call ends on the thread that is followed. -/
inductive Result (α σ : Type) where
  | done (value : α) (s : State σ)
  /-- The thread called `pthread_mutex_lock(&log_mutex)` while holding
  `log_mutex`: with the default mutex of `PTHREAD_MUTEX_INITIALIZER` it
  waits for itself and never returns. -/
  | relock (s : State σ)
  | nullCall (s : State σ)
  /-- The nesting of hooked calls went deeper than the model was asked to follow. -/
  | outOfFuel

/-- Sequencing: go on with `f` when the first part returned. -/
def Result.bind {α β σ : Type} (x : Result α σ) (f : α → State σ → Result β σ) : Result β σ :=
  match x with
  | .done v s => f v s
  | .relock s => .relock s
  | .nullCall s => .nullCall s
  | .outOfFuel => .outOfFuel

/-- Forget the returned value. -/
def Result.void {α σ : Type} (x : Result α σ) : Result Unit σ :=
  x.bind fun _ s => .done () s

/-- Whether the call ended in a second `pthread_mutex_lock` by the holder. -/
def Result.isRelock {α σ : Type} : Result α σ → Bool
  | .relock _ => true
  | _ => false

/-- How a hooked operation called from inside a stdio routine runs. -/
abbrev Hook (σ : Type) := Env → Call → State σ → Result Unit σ

/-- Apply a step of the atomic model to the recorder. -/
def State.onLog {σ : Type} (f : Recorder → Recorder) (s : State σ) : State σ :=
  { s with world := { s.world with log := f s.world.log } }

/-- The internal hooked calls of a stdio routine, one after the other. -/
def internal {σ : Type} (hook : Hook σ) (env : Env) : List Call → State σ → Result Unit σ
  | [], s => .done () s
  | c :: cs, s => (hook env c s).bind fun _ s1 => internal hook env cs s1

/-- The call `fopen(..., "w")` with its internal calls. -/
def fopen {σ : Type} (hook : Hook σ) (io : Stdio) (env : Env) (s : State σ) : Result Unit σ :=
  (internal hook env io.fopen s).bind fun _ s1 => .done () (s1.onLog (fopen_w env.fopen_ok))

/-- The call `fprintf(log_file, ...)` with its internal calls. -/
def fprintf {σ : Type} (hook : Hook σ) (io : Stdio) (env : Env) (text : String)
    (s : State σ) : Result Unit σ :=
  (internal hook env io.fprintf s).bind fun _ s1 => .done () (s1.onLog (Tracer.fprintf text))

/-- The call `fflush(log_file)` with its internal calls. -/
def fflush {σ : Type} (hook : Hook σ) (io : Stdio) (env : Env) (s : State σ) : Result Unit σ :=
  (internal hook env io.fflush s).bind fun _ s1 => .done () (s1.onLog Tracer.fflush)

/-- The call `fclose(log_file)` with its internal calls. -/
def fclose {σ : Type} (hook : Hook σ) (io : Stdio) (env : Env) (s : State σ) : Result Unit σ :=
  (internal hook env io.fclose s).bind fun _ s1 => .done () (s1.onLog Tracer.fclose)

/-- The call `pthread_mutex_lock(&log_mutex)` on the followed thread. -/
def pthread_mutex_lock {σ : Type} (s : State σ) : Result Unit σ :=
  if s.log_mutex then .relock s
  else .done () { s.onLog (emit .lock) with log_mutex := true }

/-- The call `pthread_mutex_unlock(&log_mutex)`. -/
def pthread_mutex_unlock {σ : Type} (s : State σ) : Result Unit σ :=
  .done () { s.onLog (emit .unlock) with log_mutex := false }

/-- The function `open_log` of `tracer.c`. -/
def open_log {σ : Type} (hook : Hook σ) (io : Stdio) (env : Env) (s : State σ) :
    Result Unit σ :=
  if s.world.log.log_file.isNone then
    (fopen hook io env s).bind fun _ s1 =>
      if s1.world.log.log_file.isSome then
        (fprintf hook io env HEADER s1).bind fun _ s2 => fflush hook io env s2
      else .done () s1
  else .done () s

/-- The function `tracer_init` of `tracer.c`. -/
def tracer_init {σ : Type} (hook : Hook σ) (io : Stdio) (env : Env) (s : State σ) :
    Result Unit σ :=
  open_log hook io env s

/-- The function `tracer_finalize` of `tracer.c`. -/
def tracer_finalize {σ : Type} (hook : Hook σ) (io : Stdio) (env : Env) (s : State σ) :
    Result Unit σ :=
  if s.world.log.log_file.isSome then
    (fclose hook io env s).bind fun _ s1 =>
      .done () (s1.onLog fun r => { r with log_file := none })
  else .done () s

/-- The function `log_memory_access` of `tracer.c`. -/
def log_memory_access {σ : Type} (hook : Hook σ) (io : Stdio) (env : Env) (type : String)
    (addr : Ptr) (size : Size) (s : State σ) : Result Unit σ :=
  (pthread_mutex_lock (s.onLog (emit (.enter type addr size)))).bind fun _ s1 =>
    (open_log hook io env s1).bind fun _ s2 =>
      (if s2.world.log.log_file.isSome then
          (fprintf hook io env
            (format_line env.tv_sec env.tv_nsec env.tid type addr size) s2).bind
            fun _ s3 => fflush hook io env s3
        else .done () s2).bind fun _ s4 =>
        pthread_mutex_unlock s4

/-- The hook `malloc` of `tracer.c`. -/
def malloc {σ : Type} (hook : Hook σ) (io : Stdio) (dl : Dl σ) (env : Env) (size : Size)
    (s : State σ) : Result Ptr σ :=
  let w := s.world
  let w := if w.real_malloc.isNone then
      { w.emit (.dlsym "malloc" dl.malloc.isSome) with real_malloc := dl.malloc }
    else w
  match w.real_malloc with
  | none => .nullCall { s with world := w.emit (.callNull "malloc") }
  | some f =>
    let res := f size w.heap
    let ptr := res.1
    let w := { w with heap := res.2 }.emit (.real (.malloc size) ptr)
    (log_memory_access hook io env "malloc" ptr size { s with world := w }).bind
      fun _ s1 => .done ptr s1

/-- The hook `free` of `tracer.c`. -/
def free {σ : Type} (hook : Hook σ) (io : Stdio) (dl : Dl σ) (env : Env) (ptr : Ptr)
    (s : State σ) : Result Unit σ :=
  let w := s.world
  let w := if w.real_free.isNone then
      { w.emit (.dlsym "free" dl.free.isSome) with real_free := dl.free }
    else w
  (log_memory_access hook io env "free" ptr 0 { s with world := w }).bind fun _ s1 =>
    match s1.world.real_free with
    | none => .nullCall (s1.onLog (emit (.callNull "free")))
    | some f =>
      .done () { s1 with
        world := { s1.world with heap := f ptr s1.world.heap }.emit (.real (.free ptr) 0) }

/-- The hook `calloc` of `tracer.c`. -/
def calloc {σ : Type} (hook : Hook σ) (io : Stdio) (dl : Dl σ) (env : Env)
    (nmemb size : Size) (s : State σ) : Result Ptr σ :=
  let w := s.world
  let w := if w.real_calloc.isNone then
      { w.emit (.dlsym "calloc" dl.calloc.isSome) with real_calloc := dl.calloc }
    else w
  match w.real_calloc with
  | none => .nullCall { s with world := w.emit (.callNull "calloc") }
  | some f =>
    let res := f nmemb size w.heap
    let ptr := res.1
    let w := { w with heap := res.2 }.emit (.real (.calloc nmemb size) ptr)
    (log_memory_access hook io env "calloc" ptr (nmemb * size % SIZE_MOD)
      { s with world := w }).bind fun _ s1 => .done ptr s1

/-- The hook `realloc` of `tracer.c`. -/
def realloc {σ : Type} (hook : Hook σ) (io : Stdio) (dl : Dl σ) (env : Env) (ptr : Ptr)
    (size : Size) (s : State σ) : Result Ptr σ :=
  let w := s.world
  let w := if w.real_realloc.isNone then
      { w.emit (.dlsym "realloc" dl.realloc.isSome) with real_realloc := dl.realloc }
    else w
  match w.real_realloc with
  | none => .nullCall { s with world := w.emit (.callNull "realloc") }
  | some f =>
    let res := f ptr size w.heap
    let new_ptr := res.1
    let w := { w with heap := res.2 }.emit (.real (.realloc ptr size) new_ptr)
    (log_memory_access hook io env "realloc" new_ptr size { s with world := w }).bind
      fun _ s1 => .done new_ptr s1

/-- A call of a hooked operation, followed through at most `fuel` levels of
hooked calls made from inside stdio routines. -/
def hooked {σ : Type} (io : Stdio) (dl : Dl σ) : Nat → Env → Call → State σ → Result Ptr σ
  | 0, _, _, _ => .outOfFuel
  | fuel + 1, env, c, s =>
    let hook : Hook σ := fun e c1 s1 => (hooked io dl fuel e c1 s1).void
    match c with
    | .malloc size => malloc hook io dl env size s
    | .free ptr => (free hook io dl env ptr s).bind fun _ s1 => .done 0 s1
    | .calloc nmemb size => calloc hook io dl env nmemb size s
    | .realloc ptr size => realloc hook io dl env ptr size s

/-- The stdio of a C library whose `fopen` allocates the stream object with
`malloc` (as glibc does, here with 472 bytes) and whose other routines call no
hooked operation. -/
def stdioAllocatingFopen : Stdio :=
  { fopen := [.malloc 472], fprintf := [], fflush := [], fclose := [] }

/-- The state in which the call ended, when the model followed it to its end. -/
def Result.state {α σ : Type} : Result α σ → Option (State σ)
  | .done _ s => some s
  | .relock s => some s
  | .nullCall s => some s
  | .outOfFuel => none

/-- The events up to the end of the call. -/
def Result.trace {α σ : Type} (x : Result α σ) : List Event :=
  match x.state with
  | some s => s.world.log.trace
  | none => []

/-- The base model's outcome as a result of the followed thread, which does
not hold the mutex. -/
def ofOutcome {α σ : Type} : Outcome α σ → Result α σ
  | .returned v w => .done v { world := w, log_mutex := false }
  | .nullCall w => .nullCall { world := w, log_mutex := false }

/-- The value handed back to the caller, if the call returned. -/
def Result.value {α σ : Type} : Result α σ → Option α
  | .done v _ => some v
  | _ => none

/-- The thread at the start of the process with the bump allocator: nothing
ran, the lock is free. -/
def threadStart : State Nat := { world := bumpStart, log_mutex := false }

end Reentrant

/-! # Lemmas -/

theorem log_memory_access_trace (env : Env) (type : String) (addr : Ptr) (size : Size)
    (r : Recorder) :
    (log_memory_access env type addr size r).trace
      = r.trace ++ logEvents env type addr size r.log_file.isSome := by
  obtain ⟨lf, disk, trace⟩ := r
  cases lf <;> cases h : env.fopen_ok <;>
    simp [log_memory_access, open_log, fopen_w, fprintf, fflush, emit, logEvents, h]

theorem log_memory_access_disk (env : Env) (type : String) (addr : Ptr) (size : Size)
    (r : Recorder) :
    (log_memory_access env type addr size r).disk
      = match r.log_file with
        | some buf =>
          r.disk ++ (buf ++ format_line env.tv_sec env.tv_nsec env.tid type addr size)
        | none =>
          if env.fopen_ok then
            HEADER ++ format_line env.tv_sec env.tv_nsec env.tid type addr size
          else r.disk := by
  obtain ⟨lf, disk, trace⟩ := r
  cases lf <;> cases h : env.fopen_ok <;>
    simp [log_memory_access, open_log, fopen_w, fprintf, fflush, emit, h]

theorem log_memory_access_log_file (env : Env) (type : String) (addr : Ptr) (size : Size)
    (r : Recorder) :
    (log_memory_access env type addr size r).log_file
      = if r.log_file.isSome || env.fopen_ok then some "" else none := by
  obtain ⟨lf, disk, trace⟩ := r
  cases lf <;> cases h : env.fopen_ok <;>
    simp [log_memory_access, open_log, fopen_w, fprintf, fflush, emit, h]

theorem realCalls_append (xs ys : List Event) :
    realCalls (xs ++ ys) = realCalls xs ++ realCalls ys := by
  induction xs with
  | nil => rfl
  | cons e es ih => cases e <;> simp [realCalls, ih]

theorem realCalls_logEvents (env : Env) (type : String) (addr : Ptr) (size : Size) (b : Bool) :
    realCalls (logEvents env type addr size b) = [] := by
  cases b <;> cases h : env.fopen_ok <;> simp [logEvents, realCalls, h]

theorem entered_append (xs ys : List Event) :
    entered (xs ++ ys) = entered xs ++ entered ys := by
  induction xs with
  | nil => rfl
  | cons e es ih => cases e <;> simp [entered, ih]

theorem entered_logEvents (env : Env) (type : String) (addr : Ptr) (size : Size) (b : Bool) :
    entered (logEvents env type addr size b) = [(type, addr, size)] := by
  cases b <;> cases h : env.fopen_ok <;> simp [logEvents, entered, h]

/-- What a hook does when the real allocator is found: the value, the next
allocator state, and the events in their order. -/
theorem hooked_spec {σ : Type} (real : RealAlloc σ) (env : Env) (c : Call) (w : World σ)
    (h : w.Uses real) :
    ∃ pre, (hooked (Dl.ofReal real) env c w).value = some (real.apply c w.heap).1
      ∧ (hooked (Dl.ofReal real) env c w).world.heap = (real.apply c w.heap).2
      ∧ (hooked (Dl.ofReal real) env c w).world.Uses real
      ∧ (pre = [] ∨ ∃ name, pre = [.dlsym name true])
      ∧ (hooked (Dl.ofReal real) env c w).world.log.trace = w.log.trace ++ pre ++
          (match c with
            | .free ptr => logEvents env "free" ptr 0 w.log.log_file.isSome ++ [.real c 0]
            | _ => [.real c (real.apply c w.heap).1] ++
                logEvents env (Call.record env c (real.apply c w.heap).1).kind
                  (Call.record env c (real.apply c w.heap).1).addr
                  (Call.record env c (real.apply c w.heap).1).size w.log.log_file.isSome)
      ∧ (hooked (Dl.ofReal real) env c w).world.log.disk
          = (log_memory_access env (Call.record env c (real.apply c w.heap).1).kind
              (Call.record env c (real.apply c w.heap).1).addr
              (Call.record env c (real.apply c w.heap).1).size w.log).disk
      ∧ (hooked (Dl.ofReal real) env c w).world.log.log_file
          = (log_memory_access env (Call.record env c (real.apply c w.heap).1).kind
              (Call.record env c (real.apply c w.heap).1).addr
              (Call.record env c (real.apply c w.heap).1).size w.log).log_file := by
  obtain ⟨hm, hf, hc, hr⟩ := h
  cases c with
  | malloc size =>
    rcases hm with hm | hm
    · refine ⟨[.dlsym "malloc" true], ?_⟩
      simp [hooked, malloc, Dl.ofReal, Outcome.value, Outcome.world,
        World.emit, emit, World.Uses, hm, hf, hc, hr, RealAlloc.apply, Call.record,
        log_memory_access_trace, log_memory_access_disk, log_memory_access_log_file]
    · refine ⟨[], ?_⟩
      simp [hooked, malloc, Dl.ofReal, Outcome.value, Outcome.world,
        World.emit, emit, World.Uses, hm, hf, hc, hr, RealAlloc.apply, Call.record,
        log_memory_access_trace, log_memory_access_disk, log_memory_access_log_file]
  | free ptr =>
    rcases hf with hf | hf
    · refine ⟨[.dlsym "free" true], ?_⟩
      simp [hooked, free, Dl.ofReal, Outcome.value, Outcome.world,
        World.emit, emit, World.Uses, hm, hf, hc, hr, RealAlloc.apply, Call.record,
        log_memory_access_trace, log_memory_access_disk, log_memory_access_log_file]
    · refine ⟨[], ?_⟩
      simp [hooked, free, Dl.ofReal, Outcome.value, Outcome.world,
        World.emit, emit, World.Uses, hm, hf, hc, hr, RealAlloc.apply, Call.record,
        log_memory_access_trace, log_memory_access_disk, log_memory_access_log_file]
  | calloc nmemb size =>
    rcases hc with hc | hc
    · refine ⟨[.dlsym "calloc" true], ?_⟩
      simp [hooked, calloc, Dl.ofReal, Outcome.value, Outcome.world,
        World.emit, emit, World.Uses, hm, hf, hc, hr, RealAlloc.apply, Call.record,
        log_memory_access_trace, log_memory_access_disk, log_memory_access_log_file]
    · refine ⟨[], ?_⟩
      simp [hooked, calloc, Dl.ofReal, Outcome.value, Outcome.world,
        World.emit, emit, World.Uses, hm, hf, hc, hr, RealAlloc.apply, Call.record,
        log_memory_access_trace, log_memory_access_disk, log_memory_access_log_file]
  | realloc ptr size =>
    rcases hr with hr | hr
    · refine ⟨[.dlsym "realloc" true], ?_⟩
      simp [hooked, realloc, Dl.ofReal, Outcome.value, Outcome.world,
        World.emit, emit, World.Uses, hm, hf, hc, hr, RealAlloc.apply, Call.record,
        log_memory_access_trace, log_memory_access_disk, log_memory_access_log_file]
    · refine ⟨[], ?_⟩
      simp [hooked, realloc, Dl.ofReal, Outcome.value, Outcome.world,
        World.emit, emit, World.Uses, hm, hf, hc, hr, RealAlloc.apply, Call.record,
        log_memory_access_trace, log_memory_access_disk, log_memory_access_log_file]

theorem uses_bumpStart : bumpStart.Uses bumpAlloc := by
  simp [bumpStart, World.start, World.Uses]

theorem Outcome.eq_returned {α σ : Type} (o : Outcome α σ) (v : α) (h : o.value = some v) :
    o = .returned v o.world := by
  cases o with
  | returned v1 w1 => simp [Outcome.value] at h; subst h; rfl
  | nullCall w1 => simp [Outcome.value] at h

theorem realCalls_hooked {σ : Type} (real : RealAlloc σ) (env : Env) (c : Call) (w : World σ)
    (h : w.Uses real) :
    ∃ evs, (hooked (Dl.ofReal real) env c w).world.log.trace = w.log.trace ++ evs
      ∧ realCalls evs = [(c, (real.apply c w.heap).1)] := by
  obtain ⟨pre, -, -, -, hpre, ht, -, -⟩ := hooked_spec real env c w h
  refine ⟨_, by rw [List.append_assoc] at ht; exact ht, ?_⟩
  cases c <;> rcases hpre with rfl | ⟨name, rfl⟩ <;>
    simp only [realCalls_append, realCalls_logEvents] <;> rfl

theorem data_prefix_append (a b : String) : a.data <+: (a ++ b).data := by
  simp [String.data_append]

theorem log_memory_access_extends (env : Env) (type : String) (addr : Ptr) (size : Size)
    (r : Recorder) (h : (r.log_file.isNone && env.fopen_ok) = false) :
    r.disk.data <+: (log_memory_access env type addr size r).disk.data := by
  rw [log_memory_access_disk]
  cases hlf : r.log_file with
  | some buf => exact data_prefix_append _ _
  | none =>
    have : env.fopen_ok = false := by simpa [hlf] using h
    simp [this]

theorem handleAfter_append (b : Bool) (xs ys : List Event) :
    handleAfter b (xs ++ ys) = (handleAfter b xs).bind fun b1 => handleAfter b1 ys := by
  induction xs generalizing b with
  | nil => rfl
  | cons e es ih => cases e <;> cases b <;> simp [handleAfter, ih]

theorem handleAfter_logEvents (env : Env) (type : String) (addr : Ptr) (size : Size)
    (b : Bool) :
    handleAfter b (logEvents env type addr size b) = some (b || env.fopen_ok) := by
  cases b <;> cases h : env.fopen_ok <;> simp [logEvents, handleAfter, h]

theorem exists_new_events {tr tr1 : List Event} {P : List Event → Prop}
    (h : tr1 = tr ++ tr1.drop tr.length) (hp : P (tr1.drop tr.length)) :
    ∃ evs, tr1 = tr ++ evs ∧ P evs :=
  ⟨_, h, hp⟩

/-- The events of one hooked call, whatever `dlsym` finds, follow the stream:
no `fopen` on an open stream, no `fclose` at all. -/
theorem hooked_handle {σ : Type} (dl : Dl σ) (env : Env) (c : Call) (w : World σ) :
    ∃ evs, (hooked dl env c w).world.log.trace = w.log.trace ++ evs
      ∧ handleAfter w.log.log_file.isSome evs
          = some (hooked dl env c w).world.log.log_file.isSome := by
  cases c with
  | malloc size =>
    cases h1 : w.real_malloc <;> cases h2 : dl.malloc <;> apply exists_new_events <;>
      simp [hooked, malloc, h1, h2, Outcome.world, World.emit, emit,
        log_memory_access_trace, log_memory_access_log_file, handleAfter_append,
        handleAfter_logEvents, handleAfter] <;>
      cases w.log.log_file <;> cases env.fopen_ok <;> simp [handleAfter]
  | free ptr =>
    cases h1 : w.real_free <;> cases h2 : dl.free <;> apply exists_new_events <;>
      simp [hooked, free, h1, h2, Outcome.world, World.emit, emit,
        log_memory_access_trace, log_memory_access_log_file, handleAfter_append,
        handleAfter_logEvents, handleAfter] <;>
      cases w.log.log_file <;> cases env.fopen_ok <;> simp [handleAfter]
  | calloc nmemb size =>
    cases h1 : w.real_calloc <;> cases h2 : dl.calloc <;> apply exists_new_events <;>
      simp [hooked, calloc, h1, h2, Outcome.world, World.emit, emit,
        log_memory_access_trace, log_memory_access_log_file, handleAfter_append,
        handleAfter_logEvents, handleAfter] <;>
      cases w.log.log_file <;> cases env.fopen_ok <;> simp [handleAfter]
  | realloc ptr size =>
    cases h1 : w.real_realloc <;> cases h2 : dl.realloc <;> apply exists_new_events <;>
      simp [hooked, realloc, h1, h2, Outcome.world, World.emit, emit,
        log_memory_access_trace, log_memory_access_log_file, handleAfter_append,
        handleAfter_logEvents, handleAfter] <;>
      cases w.log.log_file <;> cases env.fopen_ok <;> simp [handleAfter]

theorem void_world {α σ : Type} (o : Outcome α σ) : o.void.world = o.world := by
  cases o <;> rfl

theorem step_handle {σ : Type} (dl : Dl σ) (op : Op) (w : World σ) :
    ∃ evs, (step dl op w).world.log.trace = w.log.trace ++ evs
      ∧ handleAfter w.log.log_file.isSome evs
          = some (step dl op w).world.log.log_file.isSome := by
  cases op with
  | init env =>
    apply exists_new_events <;> cases h1 : w.log.log_file <;> cases h2 : env.fopen_ok <;>
      simp [step, Outcome.world, tracer_init, open_log, fopen_w, fprintf, fflush, emit, h1, h2,
        handleAfter]
  | finalize =>
    apply exists_new_events <;> cases h1 : w.log.log_file <;>
      simp [step, Outcome.world, tracer_finalize, fclose, emit, h1, handleAfter]
  | log env type addr size =>
    refine ⟨logEvents env type addr size w.log.log_file.isSome, ?_, ?_⟩
    · simp [step, Outcome.world, log_memory_access_trace]
    · simp [step, Outcome.world, log_memory_access_log_file, handleAfter_logEvents]
      cases w.log.log_file <;> cases env.fopen_ok <;> rfl
  | hooked env c =>
    simp only [step, void_world]
    exact hooked_handle dl env c w

/-- Over a whole sequence of calls, the events follow the stream. -/
theorem run_handle {σ : Type} (dl : Dl σ) (ops : List Op) :
    ∀ w : World σ, ∃ evs, (run dl ops w).world.log.trace = w.log.trace ++ evs
      ∧ handleAfter w.log.log_file.isSome evs
          = some (run dl ops w).world.log.log_file.isSome := by
  induction ops with
  | nil => intro w; exact ⟨[], by simp [run, Outcome.world], rfl⟩
  | cons op ops ih =>
    intro w
    obtain ⟨evs1, ht1, hh1⟩ := step_handle dl op w
    cases hs : step dl op w with
    | nullCall w1 =>
      rw [hs] at ht1 hh1
      exact ⟨evs1, by simpa [run, hs, Outcome.world] using ht1,
        by simpa [run, hs, Outcome.world] using hh1⟩
    | returned v w1 =>
      rw [hs] at ht1 hh1
      simp only [Outcome.world] at ht1 hh1
      obtain ⟨evs2, ht2, hh2⟩ := ih w1
      refine ⟨evs1 ++ evs2, ?_, ?_⟩
      · simp only [run, hs]
        rw [ht2, ht1, List.append_assoc]
      · simp only [run, hs]
        rw [handleAfter_append, hh1]
        exact hh2

namespace Reentrant

/-- With stdio routines that call no hooked operation, and the mutex not held
by the thread, `log_memory_access` is the one of the atomic model. -/
theorem log_memory_access_quiet {σ : Type} (hook : Hook σ) (env : Env) (type : String)
    (addr : Ptr) (size : Size) (s : State σ) (hfree : s.log_mutex = false) :
    log_memory_access hook Stdio.quiet env type addr size s
      = .done ()
          { world := { s.world with
              log := Tracer.log_memory_access env type addr size s.world.log }
            log_mutex := false } := by
  obtain ⟨⟨⟨lf, disk, tr⟩, heap, rm, rf, rc, rr⟩, m⟩ := s
  simp only at hfree
  subst hfree
  cases lf <;> cases hok : env.fopen_ok <;>
    simp [log_memory_access, pthread_mutex_lock, pthread_mutex_unlock, open_log, fopen, fprintf,
      fflush, internal, Stdio.quiet, Result.bind, State.onLog, Tracer.log_memory_access,
      Tracer.open_log, Tracer.fopen_w, Tracer.fprintf, Tracer.fflush, emit, hok]

/-- With stdio routines that call no hooked operation, and the mutex not held
by the thread, each hook is the one of the atomic model, at every depth the
model is asked to follow. -/
theorem hooked_quiet {σ : Type} (dl : Dl σ) (fuel : Nat) (env : Env) (c : Call)
    (s : State σ) (hfree : s.log_mutex = false) :
    hooked Stdio.quiet dl (fuel + 1) env c s = ofOutcome (Tracer.hooked dl env c s.world) := by
  obtain ⟨w, m⟩ := s
  simp only at hfree
  subst hfree
  cases c with
  | malloc size =>
    cases h1 : w.real_malloc <;> cases h2 : dl.malloc <;>
      simp [hooked, malloc, Tracer.hooked, Tracer.malloc, h1, h2, ofOutcome,
        log_memory_access_quiet, Result.bind, World.emit]
  | free ptr =>
    cases h1 : w.real_free <;> cases h2 : dl.free <;>
      simp [hooked, free, Tracer.hooked, Tracer.free, h1, h2, ofOutcome,
        log_memory_access_quiet, Result.bind, World.emit, State.onLog]
  | calloc nmemb size =>
    cases h1 : w.real_calloc <;> cases h2 : dl.calloc <;>
      simp [hooked, calloc, Tracer.hooked, Tracer.calloc, h1, h2, ofOutcome,
        log_memory_access_quiet, Result.bind, World.emit]
  | realloc ptr size =>
    cases h1 : w.real_realloc <;> cases h2 : dl.realloc <;>
      simp [hooked, realloc, Tracer.hooked, Tracer.realloc, h1, h2, ofOutcome,
        log_memory_access_quiet, Result.bind, World.emit]

/-- A hooked operation called by a thread that holds `log_mutex`, the real
allocator being found, ends in `pthread_mutex_lock` on the held mutex. -/
theorem hooked_while_locked_relocks {σ : Type} (io : Stdio) (real : RealAlloc σ)
    (fuel : Nat) (env : Env) (c : Call) (s : State σ) (hu : s.world.Uses real)
    (hheld : s.log_mutex = true) :
    (hooked io (Dl.ofReal real) (fuel + 1) env c s).isRelock = true := by
  obtain ⟨w, m⟩ := s
  simp only at hheld
  subst hheld
  obtain ⟨hm, hf, hc, hr⟩ : w.Uses real := hu
  cases c with
  | malloc size =>
    rcases hm with h1 | h1 <;>
      simp [hooked, malloc, h1, Dl.ofReal, log_memory_access, pthread_mutex_lock, State.onLog,
        Result.bind, Result.isRelock]
  | free ptr =>
    rcases hf with h1 | h1 <;>
      simp [hooked, free, h1, Dl.ofReal, log_memory_access, pthread_mutex_lock, State.onLog,
        Result.bind, Result.isRelock]
  | calloc nmemb size =>
    rcases hc with h1 | h1 <;>
      simp [hooked, calloc, h1, Dl.ofReal, log_memory_access, pthread_mutex_lock, State.onLog,
        Result.bind, Result.isRelock]
  | realloc ptr size =>
    rcases hr with h1 | h1 <;>
      simp [hooked, realloc, h1, Dl.ofReal, log_memory_access, pthread_mutex_lock, State.onLog,
        Result.bind, Result.isRelock]

/-- With quiet stdio and the real allocator found, a hooked call of a thread
that does not hold the lock returns what the atomic model returns. -/
theorem hooked_quiet_done {σ : Type} (real : RealAlloc σ) (fuel : Nat) (env : Env) (c : Call)
    (s : State σ) (hu : s.world.Uses real) (hfree : s.log_mutex = false) :
    hooked Stdio.quiet (Dl.ofReal real) (fuel + 1) env c s
      = .done (real.apply c s.world.heap).1
          { world := (Tracer.hooked (Dl.ofReal real) env c s.world).world, log_mutex := false } := by
  obtain ⟨pre, hv, -⟩ := hooked_spec real env c s.world hu
  have hret := Outcome.eq_returned _ _ hv
  rw [hooked_quiet _ _ _ _ _ hfree]
  generalize Tracer.hooked (Dl.ofReal real) env c s.world = o at hret
  rw [hret]
  rfl

end Reentrant

/-! # The claims -/

namespace Reentrant

/-! ## C1: the hooks delegate to the real allocator -/

set_option maxRecDepth 100000 in
/-- C1, as stated, fails: with a C library whose `fopen` allocates the stream
with `malloc`, the first `malloc(16)` of the process, made with the log not
yet open, hands no result to its caller: the `malloc` inside `fopen` is the
hook again and ends in `pthread_mutex_lock` on the mutex the thread holds. The
real `malloc` has then run twice. -/
theorem malloc_returns_nothing_when_fopen_allocates :
    (hooked stdioAllocatingFopen (Dl.ofReal bumpAlloc) 2 (envAt true 1) (.malloc 16)
        threadStart).value = none
    ∧ (hooked stdioAllocatingFopen (Dl.ofReal bumpAlloc) 2 (envAt true 1) (.malloc 16)
        threadStart).isRelock = true
    ∧ realCalls (hooked stdioAllocatingFopen (Dl.ofReal bumpAlloc) 2 (envAt true 1) (.malloc 16)
        threadStart).trace = [(.malloc 16, 4096), (.malloc 472, 4112)] := by
  decide

/-- C1 (amended). When the stdio routines call no hooked operation and the
calling thread does not hold the lock, then for every real allocator, every
argument, every environment (whether `fopen` would succeed or not) and every
state of the log, each hooked operation returns exactly what the real
implementation returns for the same arguments (a null result included; `0`
stands for the nothing that `free` returns), leaves the real allocator in the
state that one call of the real implementation leaves it in, and the events
of the call contain exactly one call of the real implementation, with the
arguments given. -/
theorem hooks_call_real_once_when_stdio_calls_no_hook {σ : Type} (real : RealAlloc σ)
    (fuel : Nat) (env : Env) (c : Call) (s : State σ) (hu : s.world.Uses real)
    (hfree : s.log_mutex = false) :
    ∃ s1 evs, hooked Stdio.quiet (Dl.ofReal real) (fuel + 1) env c s
        = .done (real.apply c s.world.heap).1 s1
      ∧ s1.world.heap = (real.apply c s.world.heap).2
      ∧ s1.log_mutex = false
      ∧ s1.world.log.trace = s.world.log.trace ++ evs
      ∧ realCalls evs = [(c, (real.apply c s.world.heap).1)] := by
  obtain ⟨pre, -, hh, -⟩ := hooked_spec real env c s.world hu
  obtain ⟨evs, ht, hr⟩ := realCalls_hooked real env c s.world hu
  exact ⟨_, evs, hooked_quiet_done real fuel env c s hu hfree, hh, rfl, ht, hr⟩

/-- Witness of C1: with the bump allocator, quiet stdio and a log that cannot be
opened, `malloc(16)` returns the allocator's own result, `4096`. -/
theorem hooks_call_real_once_when_stdio_calls_no_hook_witness :
    (threadStart.world.Uses bumpAlloc ∧ threadStart.log_mutex = false)
    ∧ (hooked Stdio.quiet (Dl.ofReal bumpAlloc) 1 (envAt false 17) (.malloc 16)
        threadStart).value = some 4096 :=
  ⟨⟨uses_bumpStart, rfl⟩, by
    obtain ⟨s1, _, h1, _⟩ :=
      hooks_call_real_once_when_stdio_calls_no_hook bumpAlloc 0 (envAt false 17) (.malloc 16)
        threadStart uses_bumpStart rfl
    rw [h1]; rfl⟩

/-! ## C2: one record per call, in order -/

set_option maxRecDepth 100000 in
/-- C4, as stated, fails, in two ways. With quiet stdio and a log that cannot be
opened, `free(4096)` releases without any record having been written: no
`fprintf` among its events, the file as it was. With a C library whose `fopen`
allocates the stream with `malloc`, `free(4096)` with the log not yet open
ends in `pthread_mutex_lock` on the held mutex: no record is written and the
real `free` is not invoked. -/
theorem free_releases_without_a_written_record :
    (hooked Stdio.quiet (Dl.ofReal bumpAlloc) 1 (envAt false 1) (.free 4096) threadStart).trace
      = [.dlsym "free" true, .enter "free" 4096 0, .lock, .fopen false, .unlock,
          .real (.free 4096) 0]
    ∧ ((hooked Stdio.quiet (Dl.ofReal bumpAlloc) 1 (envAt false 1) (.free 4096)
        threadStart).state.map fun s => s.world.log.disk) = some ""
    ∧ (hooked stdioAllocatingFopen (Dl.ofReal bumpAlloc) 2 (envAt true 1) (.free 4096)
        threadStart).isRelock = true
    ∧ (hooked stdioAllocatingFopen (Dl.ofReal bumpAlloc) 2 (envAt true 1) (.free 4096)
        threadStart).trace
      = [.dlsym "free" true, .enter "free" 4096 0, .lock, .dlsym "malloc" true,
          .real (.malloc 472) 4096, .enter "malloc" 4096 472] := by
  decide

/-- C4 (amended). When the stdio routines call no hooked operation and the
calling thread does not hold the lock, `free(ptr)` returns and its events end
with the one call of the real `free` on `ptr`; everything the recorder does
comes before it. The record of kind `free` with address `ptr` and size `0` is
handed to the recorder; when the log is open or opens, its line is written and
flushed to the file before the real `free`, never after it; when the log is
not open and cannot be opened, nothing is written and the file stays as it
was. -/
theorem free_records_before_release_when_stdio_calls_no_hook {σ : Type}
    (real : RealAlloc σ) (fuel : Nat) (env : Env) (ptr : Ptr) (s : State σ)
    (hu : s.world.Uses real) (hfree : s.log_mutex = false) :
    ∃ s1 evs, hooked Stdio.quiet (Dl.ofReal real) (fuel + 1) env (.free ptr) s = .done 0 s1
      ∧ s1.world.log.trace = s.world.log.trace ++ evs ++ [.real (.free ptr) 0]
      ∧ realCalls evs = []
      ∧ entered evs = [("free", ptr, 0)]
      ∧ ((s.world.log.log_file.isSome = true ∨ env.fopen_ok = true) →
          ∃ evs1, evs = evs1 ++
            [.fprintf (format_line env.tv_sec env.tv_nsec env.tid "free" ptr 0), .fflush,
              .unlock])
      ∧ ((s.world.log.log_file = none ∧ env.fopen_ok = false) →
          s1.world.log.disk = s.world.log.disk ∧ ∀ text, Event.fprintf text ∉ evs)
      ∧ s1.world.log.disk = (Tracer.log_memory_access env "free" ptr 0 s.world.log).disk := by
  obtain ⟨pre, -, -, -, hpre, ht, hd, -⟩ := hooked_spec real env (.free ptr) s.world hu
  refine ⟨_, pre ++ logEvents env "free" ptr 0 s.world.log.log_file.isSome,
    hooked_quiet_done real fuel env (.free ptr) s hu hfree,
    by simpa [List.append_assoc] using ht, ?_, ?_, fun ho => ?_, fun hc => ⟨?_, fun text => ?_⟩,
    hd⟩
  · rcases hpre with rfl | ⟨name, rfl⟩ <;>
      simp only [realCalls_append, realCalls_logEvents] <;> rfl
  · rcases hpre with rfl | ⟨name, rfl⟩ <;>
      simp only [entered_append, entered_logEvents] <;> rfl
  · have hb : (s.world.log.log_file.isSome || env.fopen_ok) = true := by simpa using ho
    refine ⟨pre ++ ([.enter "free" ptr 0, .lock] ++
      (if s.world.log.log_file.isSome then [] else
        if env.fopen_ok then [.fopen true, .fprintf HEADER, .fflush] else [.fopen false])), ?_⟩
    simp [logEvents, hb]
  · rw [hd, log_memory_access_disk, hc.1]
    simp [hc.2]
  · rcases hpre with rfl | ⟨name, rfl⟩ <;> simp [logEvents, hc.1, hc.2]

/-- Witness of C4: `free(4096)` with the bump allocator, quiet stdio and a log
that opens. -/
theorem free_records_before_release_when_stdio_calls_no_hook_witness :
    (threadStart.world.Uses bumpAlloc ∧ threadStart.log_mutex = false)
    ∧ ∃ s1 evs, hooked Stdio.quiet (Dl.ofReal bumpAlloc) 1 (envAt true 17) (.free 4096)
          threadStart = .done 0 s1
        ∧ s1.world.log.trace = threadStart.world.log.trace ++ evs ++ [.real (.free 4096) 0]
        ∧ realCalls evs = [] :=
  ⟨⟨uses_bumpStart, rfl⟩, by
    obtain ⟨s1, evs, h1, h2, h3, _⟩ :=
      free_records_before_release_when_stdio_calls_no_hook bumpAlloc 0 (envAt true 17) 4096
        threadStart uses_bumpStart rfl
    exact ⟨s1, evs, h1, h2, h3⟩⟩

end Reentrant

/-! ## C3: what the records of the allocating operations hold -/

set_option maxRecDepth 100000 in
/-- C5, as stated, fails: after `tracer_init`, one `malloc` and
`tracer_finalize` the file holds the header and one record; the next `malloc`
opens the file again with mode `"w"`, and what the file held is gone. -/
theorem reopening_after_finalize_truncates :
    (run (Dl.ofReal bumpAlloc) initMallocFinalize bumpStart).world.log.disk
      = HEADER ++ "2.000000005,140,malloc,0x1000,16\n"
    ∧ (step (Dl.ofReal bumpAlloc) (.hooked (envAt true 3) (.malloc 32))
        (run (Dl.ofReal bumpAlloc) initMallocFinalize bumpStart).world).world.log.disk
      = HEADER ++ "3.000000005,140,malloc,0x1010,32\n"
    ∧ ¬ ((run (Dl.ofReal bumpAlloc) initMallocFinalize bumpStart).world.log.disk.data
        <+: (step (Dl.ofReal bumpAlloc) (.hooked (envAt true 3) (.malloc 32))
          (run (Dl.ofReal bumpAlloc) initMallocFinalize bumpStart).world).world.log.disk.data) := by
  decide

/-- C5 (amended). A call that does not open the log file (the stream is open when
the call starts, or the call is `tracer_finalize`, or its `fopen` fails) only
extends the file: what the file held before the call is a prefix of what it
holds after it. -/
theorem file_only_grows_when_not_opened {σ : Type} (dl : Dl σ) (op : Op) (w : World σ)
    (h : opens op w.log = false) :
    w.log.disk.data <+: (step dl op w).world.log.disk.data := by
  obtain ⟨⟨lf, disk, tr⟩, heap, rm, rf, rc, rr⟩ := w
  cases op with
  | init env =>
    cases lf <;> cases hok : env.fopen_ok <;>
      simp_all [opens, step, Outcome.world, tracer_init, open_log, fopen_w, emit]
  | finalize =>
    cases lf <;>
      simp [step, Outcome.world, tracer_finalize, fclose, emit, String.data_append]
  | log env type addr size =>
    exact log_memory_access_extends env type addr size _ (by simpa [opens] using h)
  | hooked env c =>
    have h1 : (lf.isNone && env.fopen_ok) = false := by simpa [opens] using h
    cases c with
    | malloc size =>
      cases rm <;> cases h2 : dl.malloc <;> cases lf <;> cases hok : env.fopen_ok <;>
        simp_all [step, hooked, malloc, Outcome.void, Outcome.world, World.emit, emit,
          log_memory_access_disk, String.data_append]
    | free ptr =>
      cases rf <;> cases h2 : dl.free <;> cases lf <;> cases hok : env.fopen_ok <;>
        simp_all [step, hooked, free, Outcome.void, Outcome.world, World.emit, emit,
          log_memory_access_disk, String.data_append]
    | calloc nmemb size =>
      cases rc <;> cases h2 : dl.calloc <;> cases lf <;> cases hok : env.fopen_ok <;>
        simp_all [step, hooked, calloc, Outcome.void, Outcome.world, World.emit, emit,
          log_memory_access_disk, String.data_append]
    | realloc ptr size =>
      cases rr <;> cases h2 : dl.realloc <;> cases lf <;> cases hok : env.fopen_ok <;>
        simp_all [step, hooked, realloc, Outcome.void, Outcome.world, World.emit, emit,
          log_memory_access_disk, String.data_append]

/-- Witness of C5: on the log opened by `tracer_init`, `malloc(16)` extends the
file. -/
theorem file_only_grows_when_not_opened_witness :
    opens (.hooked (envAt true 2) (.malloc 16)) openedWorld.log = false
    ∧ openedWorld.log.disk.data
        <+: (step (Dl.ofReal bumpAlloc) (.hooked (envAt true 2) (.malloc 16))
              openedWorld).world.log.disk.data :=
  ⟨by decide,
    file_only_grows_when_not_opened (Dl.ofReal bumpAlloc) (.hooked (envAt true 2) (.malloc 16))
      openedWorld (by decide)⟩

/-! ## C6: a failed `fopen` is tried again -/

/-- C8 (idempotent open, close once). Over every sequence of `tracer_init`,
`tracer_finalize`, `log_memory_access` and hooked calls, from every state, the
events never show an `fopen` while the stream is open nor an `fclose` while it
is not. `tracer_init` on an open log changes nothing; `tracer_finalize` on a log
that is not open changes nothing; on an open log it closes the stream with one
`fclose`, which flushes what was buffered, and leaves `log_file` empty; two
`tracer_finalize` in a row do what one does. -/
theorem open_and_close_follow_the_handle {σ : Type} (dl : Dl σ) (ops : List Op)
    (w : World σ) :
    (∃ evs, (run dl ops w).world.log.trace = w.log.trace ++ evs
      ∧ handleAfter w.log.log_file.isSome evs
          = some (run dl ops w).world.log.log_file.isSome)
    ∧ (∀ (env : Env) (r : Recorder) (buf : String),
        r.log_file = some buf → tracer_init env r = r)
    ∧ (∀ r : Recorder, r.log_file = none → tracer_finalize r = r)
    ∧ (∀ (r : Recorder) (buf : String), r.log_file = some buf →
        tracer_finalize r
          = { log_file := none, disk := r.disk ++ buf, trace := r.trace ++ [.fclose] })
    ∧ (∀ r : Recorder, tracer_finalize (tracer_finalize r) = tracer_finalize r) := by
  refine ⟨run_handle dl ops w, ?_, ?_, ?_, ?_⟩
  · intro env r buf h
    simp [tracer_init, open_log, h]
  · intro r h
    simp [tracer_finalize, h]
  · intro r buf h
    simp [tracer_finalize, fclose, emit, h]
  · intro r
    cases h : r.log_file <;> simp [tracer_finalize, fclose, emit, h]

/-- Witness of C8: on the log opened by `tracer_init`, a second `tracer_init`
changes nothing, and `tracer_finalize` closes the stream with one `fclose`. -/
theorem open_and_close_follow_the_handle_witness :
    openedWorld.log.log_file = some ""
    ∧ tracer_init (envAt true 2) openedWorld.log = openedWorld.log
    ∧ tracer_finalize openedWorld.log
        = { log_file := none, disk := openedWorld.log.disk ++ "",
            trace := openedWorld.log.trace ++ [.fclose] } :=
  ⟨by decide,
    (open_and_close_follow_the_handle (Dl.ofReal bumpAlloc) [] openedWorld).2.1 (envAt true 2)
      openedWorld.log "" (by decide),
    (open_and_close_follow_the_handle (Dl.ofReal bumpAlloc) [] openedWorld).2.2.2.1
      openedWorld.log "" (by decide)⟩

/-! ## C9: a hook whose real implementation is not found -/

/-- C9, as stated, fails: when `dlsym` finds no `malloc`, the hook `malloc` goes
on to call through the null pointer; nothing is returned, and the static is
still null afterwards, so that a further call would look the name up again. -/
theorem unresolved_malloc_is_called_through_null :
    (malloc (Dl.nothing Nat) (envAt true 1) 16 bumpStart).value = none
    ∧ (malloc (Dl.nothing Nat) (envAt true 1) 16 bumpStart).world.log.trace
        = [.dlsym "malloc" false, .callNull "malloc"]
    ∧ (malloc (Dl.nothing Nat) (envAt true 2) 16
        (malloc (Dl.nothing Nat) (envAt true 1) 16 bumpStart).world).world.log.trace
        = [.dlsym "malloc" false, .callNull "malloc", .dlsym "malloc" false,
            .callNull "malloc"] := by
  decide

/-- C9 (amended). When the static of a hooked operation is null and `dlsym`
finds nothing, the hook makes no check: after the failed lookup (and, in
`free`, after the record has gone to the recorder) it calls through the null
pointer. The real allocator is not touched, nothing is returned to the caller,
and the static is still null. -/
theorem unresolved_hook_calls_through_null {σ : Type} (dl : Dl σ) (env : Env) (c : Call)
    (w : World σ) (hslot : w.bound c = false) (hdl : dl.finds c = false) :
    (hooked dl env c w).value = none
    ∧ (hooked dl env c w).world.heap = w.heap
    ∧ (hooked dl env c w).world.bound c = false
    ∧ (hooked dl env c w).world.log.trace
        = w.log.trace ++ [.dlsym c.name false]
          ++ (match c with
              | .free ptr => logEvents env "free" ptr 0 w.log.log_file.isSome
              | _ => [])
          ++ [.callNull c.name] := by
  cases c with
  | malloc size =>
    have h1 : w.real_malloc = none := by simpa [World.bound] using hslot
    have h2 : dl.malloc = none := by simpa [Dl.finds] using hdl
    simp [hooked, malloc, h1, h2, Outcome.value, Outcome.world, World.emit, emit, World.bound,
      Call.name]
  | free ptr =>
    have h1 : w.real_free = none := by simpa [World.bound] using hslot
    have h2 : dl.free = none := by simpa [Dl.finds] using hdl
    simp [hooked, free, h1, h2, Outcome.value, Outcome.world, World.emit, emit, World.bound,
      Call.name, log_memory_access_trace]
  | calloc nmemb size =>
    have h1 : w.real_calloc = none := by simpa [World.bound] using hslot
    have h2 : dl.calloc = none := by simpa [Dl.finds] using hdl
    simp [hooked, calloc, h1, h2, Outcome.value, Outcome.world, World.emit, emit, World.bound,
      Call.name]
  | realloc ptr size =>
    have h1 : w.real_realloc = none := by simpa [World.bound] using hslot
    have h2 : dl.realloc = none := by simpa [Dl.finds] using hdl
    simp [hooked, realloc, h1, h2, Outcome.value, Outcome.world, World.emit, emit, World.bound,
      Call.name]

/-- Witness of C9: `free(4096)` when `dlsym` finds nothing. -/
theorem unresolved_hook_calls_through_null_witness :
    (bumpStart.bound (.free 4096) = false ∧ (Dl.nothing Nat).finds (.free 4096) = false)
    ∧ (hooked (Dl.nothing Nat) (envAt true 1) (.free 4096) bumpStart).value = none :=
  ⟨⟨by decide, by decide⟩,
    (unresolved_hook_calls_through_null (Dl.nothing Nat) (envAt true 1) (.free 4096) bumpStart
      (by decide) (by decide)).1⟩

/-! ## C10: the lock and re-entry -/

namespace Reentrant

set_option maxRecDepth 100000 in
/-- C10, as stated, fails: with a C library whose `fopen` allocates the stream
with `malloc`, the first `malloc(16)` of the program takes the lock in
`log_memory_access` and calls `fopen`; the `malloc(472)` inside `fopen` is the
hook again, which calls `log_memory_access`, which calls
`pthread_mutex_lock` on the mutex the thread holds. The lock taken at the
start is not released. -/
theorem fopen_allocating_relocks :
    (hooked stdioAllocatingFopen (Dl.ofReal bumpAlloc) 2 (envAt true 1) (.malloc 16)
        { world := bumpStart, log_mutex := false }).isRelock = true
    ∧ (hooked stdioAllocatingFopen (Dl.ofReal bumpAlloc) 2 (envAt true 1) (.malloc 16)
        { world := bumpStart, log_mutex := false }).trace
      = [.dlsym "malloc" true, .real (.malloc 16) 4096, .enter "malloc" 4096 16, .lock,
          .real (.malloc 472) 4112, .enter "malloc" 4112 472]
    ∧ ((hooked stdioAllocatingFopen (Dl.ofReal bumpAlloc) 2 (envAt true 1) (.malloc 16)
        { world := bumpStart, log_mutex := false }).state.map fun s => s.log_mutex)
      = some true := by
  decide

/-- C10 (amended). When `fopen`, `fprintf` and `fflush` call no hooked operation,
a thread that enters `log_memory_access` without holding the lock takes it
once, does not try to take it again before it releases it, and releases it at
the end: the call returns with the lock free, having done what the atomic
model says, and between the one `lock` and the final `unlock` no event is a
`lock` or an `unlock`. There is no guard against re-entry: whatever the stdio
routines are, a hooked operation that runs on a thread holding the lock, the
real allocator being found, ends in `pthread_mutex_lock` on the held mutex. -/
theorem no_relock_when_stdio_calls_no_hook {σ : Type} (hook : Hook σ) (env : Env)
    (type : String) (addr : Ptr) (size : Size) (s : State σ) (hfree : s.log_mutex = false) :
    (∃ s1 mid, log_memory_access hook Stdio.quiet env type addr size s = .done () s1
      ∧ s1.log_mutex = false
      ∧ s1.world.log = Tracer.log_memory_access env type addr size s.world.log
      ∧ s1.world.log.trace
          = s.world.log.trace ++ [.enter type addr size, .lock] ++ mid ++ [.unlock]
      ∧ Event.lock ∉ mid ∧ Event.unlock ∉ mid)
    ∧ ∀ (io : Stdio) (real : RealAlloc σ) (fuel : Nat) (c : Call) (s2 : State σ),
        s2.world.Uses real → s2.log_mutex = true →
          (hooked io (Dl.ofReal real) (fuel + 1) env c s2).isRelock = true := by
  refine ⟨⟨_, (if s.world.log.log_file.isSome then [] else
      if env.fopen_ok then [.fopen true, .fprintf HEADER, .fflush] else [.fopen false])
    ++ (if s.world.log.log_file.isSome || env.fopen_ok then
          [.fprintf (format_line env.tv_sec env.tv_nsec env.tid type addr size), .fflush]
        else []),
    log_memory_access_quiet hook env type addr size s hfree, rfl, rfl, ?_, ?_, ?_⟩,
    fun io real fuel c s2 hu hheld => hooked_while_locked_relocks io real fuel env c s2 hu hheld⟩
  · simp [log_memory_access_trace, logEvents]
  · cases s.world.log.log_file <;> cases env.fopen_ok <;> simp
  · cases s.world.log.log_file <;> cases env.fopen_ok <;> simp

/-- Witness of C10: the first `log_memory_access` of a process, with quiet
stdio, returns with the lock free. -/
theorem no_relock_when_stdio_calls_no_hook_witness :
    ({ world := bumpStart, log_mutex := false } : State Nat).log_mutex = false
    ∧ ∃ s1, log_memory_access (fun _ _ s => .done () s) Stdio.quiet (envAt true 1) "malloc"
          4096 16 { world := bumpStart, log_mutex := false } = .done () s1
        ∧ s1.log_mutex = false :=
  ⟨rfl, by
    obtain ⟨s1, _, h1, h2, _⟩ :=
      (no_relock_when_stdio_calls_no_hook (fun _ _ s => .done () s) (envAt true 1) "malloc" 4096
        16 { world := bumpStart, log_mutex := false } rfl).1
    exact ⟨s1, h1, h2⟩⟩

end Reentrant

end Tracer
